import Mathlib

/-!
# Formal model of the fixhub scan/fix pipeline

A shallow embedding, in Lean 4, of the parts of the `fixhub` Go package and
the `fixhubd` server that the verified properties below are about:

* the `Problem` record, the `Problems.Less` ordering and the final sorting
  step of `Client.Check` (fixhub.go);
* the per-file analysis pipeline inside `Client.Check` (fixhub.go);
* `Client.Fix`, `Client.CommitFix` and the fork-polling loop of
  `Client.loadWorkingRepo` (fixhub.go);
* the in-memory session store (`cmd/fixhubd/datastore.go`) and the
  `fix` HTTP handler's commit loop (`cmd/fixhubd/fix.go`).

External effects (GitHub API calls, `go/format`, the linter, the vet binary,
random draws, clock reads) are passed in as explicit oracle arguments, so
every definition is a pure, executable function of its inputs.  Go byte
slices are modelled as `List Nat`, Go strings as `String` (compared through
their character lists, which coincides with Go's byte-wise lexicographic
comparison on ASCII data), Go `int` as `Int`, and durations as naturals
counting milliseconds.
-/

namespace Fixhub

/-- Go string comparison `a < b` (byte-wise lexicographic), modelled as the
lexicographic order on the underlying character lists.  Defined on
`String.data` rather than through `String.lt` so that it evaluates by
kernel reduction on concrete inputs. -/
def strLt (a b : String) : Bool := decide (a.data < b.data)

/-- Go struct `Problem` of fixhub.go: one thing that was found wrong.
Go's `Type ProblemType` (a string) is field `ptype` (`type` is unavailable
as a field name), `Line int` is an `Int`, the rest are verbatim. -/
structure Problem where
  ptype : String
  file : String
  sha1 : String
  line : Int
  text : String
  fixable : Bool
deriving DecidableEq, Repr

/-- The constant `Gofmt ProblemType = "gofmt"`, the only `ProblemType`. -/
def Gofmt : String := "gofmt"

/-- Method `Problems.Less` of fixhub.go: compare by `File`, then `Line`, then
`Text`; fields `SHA1`, `Type`, `Fixable` do not participate. -/
def problemsLess (a b : Problem) : Bool :=
  if a.file ≠ b.file then strLt a.file b.file
  else if a.line ≠ b.line then decide (a.line < b.line)
  else strLt a.text b.text

/-- The sort key `(File, Line, Text)` that `Problems.Less` compares,
as a point of the lexicographic product order. -/
def keyOf (p : Problem) : String ×ₗ (Int ×ₗ String) :=
  toLex (p.file, toLex (p.line, p.text))

/-- One insertion step of the insertion sort that Go's `sort.Sort` runs on
small ranges: the new element ends up before the first (leftmost) element
of the already-sorted prefix that it compares `Less` than — exactly where
`insertionSort`'s swap loop in `go/src/sort/sort.go` parks it. -/
def goOrderedInsert (less : Problem → Problem → Bool) (x : Problem) :
    List Problem → List Problem
  | [] => [x]
  | y :: ys => if less x y then x :: y :: ys else y :: goOrderedInsert less x ys

/-- Model of `sort.Sort(Problems(problems.list))` at the end of
`Client.Check`: Go's `sort.Sort` runs plain insertion sort on any range at
or below its small-range threshold (in particular on every range of two
elements), processing elements left to right; on larger ranges it
guarantees the same sorted-permutation result.  We model it by that
insertion sort, driven by the repository's `Problems.Less`. -/
def goInsertionSort (less : Problem → Problem → Bool) (l : List Problem) :
    List Problem :=
  l.foldl (fun acc x => goOrderedInsert less x acc) []

/-- The finalize step of `Client.Check`: sort the accumulated problem list
with `Problems.Less` and return it. -/
def checkFinalize (l : List Problem) : List Problem :=
  goInsertionSort problemsLess l

/-! ### Order facts about `Problems.Less` -/

theorem strLt_iff {a b : String} : strLt a b = true ↔ a < b := by
  rw [strLt, decide_eq_true_iff, String.lt_iff_toList_lt]
  rfl

theorem problemsLess_iff {a b : Problem} :
    problemsLess a b = true ↔ keyOf a < keyOf b := by
  unfold problemsLess keyOf
  rw [Prod.Lex.lt_iff, Prod.Lex.lt_iff]
  by_cases hf : a.file = b.file
  · by_cases hl : a.line = b.line
    · simp [hf, hl, strLt_iff]
    · simp [hf, hl, strLt_iff]
  · simp [hf, strLt_iff]

theorem problemsLess_eq_false_iff {a b : Problem} :
    problemsLess a b = false ↔ keyOf b ≤ keyOf a := by
  rw [← not_lt, ← problemsLess_iff]
  cases h : problemsLess a b <;> simp

/-! ### The insertion sort: permutation, sortedness, key determinism -/

theorem goOrderedInsert_perm (less : Problem → Problem → Bool) (x : Problem)
    (l : List Problem) : (goOrderedInsert less x l).Perm (x :: l) := by
  induction l with
  | nil => simp [goOrderedInsert]
  | cons y ys ih =>
    rw [goOrderedInsert]
    cases h : less x y
    · simp only [Bool.false_eq_true, if_false]
      exact (ih.cons y).trans (List.Perm.swap x y ys)
    · simp

theorem goInsertionSort_perm (less : Problem → Problem → Bool)
    (l : List Problem) : (goInsertionSort less l).Perm l := by
  suffices h : ∀ (l acc : List Problem),
      (l.foldl (fun acc x => goOrderedInsert less x acc) acc).Perm (acc ++ l) by
    simpa using h l []
  intro l
  induction l with
  | nil => simp
  | cons x xs ih =>
    intro acc
    exact (ih _).trans
      (((goOrderedInsert_perm less x acc).append_right xs).trans
        List.perm_middle.symm)

/-- Sortedness predicate matching `sort.IsSorted` for `Problems.Less`:
no later element is `Less` than an earlier one. -/
def ProblemsSorted (l : List Problem) : Prop :=
  l.Pairwise (fun a b => problemsLess b a = false)

theorem goOrderedInsert_sorted (x : Problem) {l : List Problem}
    (hl : ProblemsSorted l) :
    ProblemsSorted (goOrderedInsert problemsLess x l) := by
  induction l with
  | nil => simp [goOrderedInsert, ProblemsSorted]
  | cons y ys ih =>
    rw [ProblemsSorted, List.pairwise_cons] at hl
    obtain ⟨hy, hys⟩ := hl
    rw [goOrderedInsert]
    cases h : problemsLess x y
    · simp only [Bool.false_eq_true, if_false, ProblemsSorted, List.pairwise_cons]
      refine ⟨?_, ih hys⟩
      intro z hz
      rcases List.mem_cons.mp
          ((goOrderedInsert_perm problemsLess x ys).mem_iff.mp hz) with rfl | hz'
      · exact h
      · exact hy z hz'
    · simp only [if_true, ProblemsSorted, List.pairwise_cons]
      refine ⟨?_, hy, hys⟩
      intro z hz
      rcases List.mem_cons.mp hz with rfl | hz'
      · rw [problemsLess_eq_false_iff]
        exact le_of_lt (problemsLess_iff.mp h)
      · rw [problemsLess_eq_false_iff]
        exact le_trans (le_of_lt (problemsLess_iff.mp h))
          (problemsLess_eq_false_iff.mp (hy z hz'))

theorem checkFinalize_sorted (l : List Problem) :
    ProblemsSorted (checkFinalize l) := by
  suffices h : ∀ (l acc : List Problem), ProblemsSorted acc →
      ProblemsSorted (l.foldl (fun acc x => goOrderedInsert problemsLess x acc) acc) by
    exact h l [] (by simp [ProblemsSorted])
  intro l
  induction l with
  | nil => exact fun acc h => h
  | cons x xs ih =>
    intro acc hacc
    exact ih _ (goOrderedInsert_sorted x hacc)

theorem checkFinalize_keys_sorted (l : List Problem) :
    ((checkFinalize l).map keyOf).Sorted (· ≤ ·) := by
  rw [List.Sorted, List.pairwise_map]
  exact (checkFinalize_sorted l).imp (fun h => problemsLess_eq_false_iff.mp h)

theorem checkFinalize_keys_deterministic {l₁ l₂ : List Problem}
    (h : l₁.Perm l₂) :
    (checkFinalize l₁).map keyOf = (checkFinalize l₂).map keyOf := by
  refine List.eq_of_perm_of_sorted ?_ (checkFinalize_keys_sorted l₁)
    (checkFinalize_keys_sorted l₂)
  exact ((goInsertionSort_perm problemsLess l₁).trans
    (h.trans (goInsertionSort_perm problemsLess l₂).symm)).map keyOf

/-! ### The per-file analysis pipeline of `Client.Check`

`Client.Check` spawns one goroutine per eligible tree entry.  After a
successful `GetBlob`, the goroutine body is a pure function of the file
(path, blob id, bytes) and of the outcomes of the external analyzers
(`format.Source`, the linter, the vet binary), which we pass as oracle
values.  `checkFile` below returns the problems that body appends to the
shared list, in program order. -/

/-- One `go/scanner` error as consumed by `addScannerError`:
`err.Pos.Line` and `err.Msg`. -/
structure ScannerError where
  line : Int
  msg : String
deriving DecidableEq, Repr

/-- One `golint` problem as consumed by the lint loop: `p.Position.Line`,
`p.Text` and `p.Confidence` (a float64, modelled as a rational). -/
structure LintProblem where
  line : Int
  text : String
  confidence : ℚ
deriving DecidableEq

/-- One problem parsed out of the vet binary's output by `Client.vet`:
a line number and trimmed message text. -/
structure VetProblem where
  line : Int
  text : String
deriving DecidableEq

/-- Outcome of `format.Source(src)` as the goroutine's type switch sees it:
success with the reformatted bytes, a `scanner.ErrorList`, a single
`*scanner.Error`, or any other error. -/
inductive FormatResult where
  | ok (formatted : List Nat)
  | errorList (errs : List ScannerError)
  | errorSingle (err : ScannerError)
  | errorOther (msg : String)
deriving DecidableEq

/-- Helper `addScannerError` of `Client.Check`: a problem with only `File`,
`Line`, `Text` set (all other fields keep their Go zero values). -/
def scannerProblem (path : String) (e : ScannerError) : Problem :=
  { ptype := "", file := path, sha1 := "", line := e.line, text := e.msg,
    fixable := false }

/-- The problem recorded when `format.Source` succeeds but its output
differs from the input: `Type: Gofmt`, `SHA1: sha1`, `Fixable: true`. -/
def gofmtProblem (path sha1 : String) : Problem :=
  { ptype := Gofmt, file := path, sha1 := sha1, line := 0,
    text := "This file needs formatting with gofmt.", fixable := true }

/-- A lint problem above the confidence threshold, as recorded by the
lint loop of `Client.Check` (only `File`, `Line`, `Text` set). -/
def lintProblem (path : String) (p : LintProblem) : Problem :=
  { ptype := "", file := path, sha1 := "", line := p.line, text := p.text,
    fixable := false }

/-- A problem built by `Client.vet`'s output parser (only `File`, `Line`,
`Text` set). -/
def vetProblem (path : String) (p : VetProblem) : Problem :=
  { ptype := "", file := path, sha1 := "", line := p.line, text := p.text,
    fixable := false }

/-- The confidence cutoff `0.8` in `if p.Confidence < 0.8 { continue }`. -/
def confidenceThreshold : ℚ := 8 / 10

/-- The body of `Client.Check`'s per-file goroutine after a successful
blob fetch, as a pure function of the analyzer outcomes; returns the
problems recorded for this file, in the order they are appended.
Mirrors fixhub.go: a failed `format.Source` records scanner problems and
returns early; otherwise a gofmt problem is recorded iff the bytes
changed, then lint problems above the threshold (when the linter
succeeded), then vet problems (when vet ran successfully). -/
def checkFile (path sha1 : String) (src : List Nat) (fmtRes : FormatResult)
    (lintRes : Except String (List LintProblem))
    (vetRes : Except String (List VetProblem)) : List Problem :=
  match fmtRes with
  | .errorList errs => errs.map (scannerProblem path)
  | .errorSingle e => [scannerProblem path e]
  | .errorOther msg =>
      [{ ptype := "", file := path, sha1 := "", line := 0, text := msg,
         fixable := false }]
  | .ok formatted =>
      (if src ≠ formatted then [gofmtProblem path sha1] else []) ++
      (match lintRes with
       | .ok ps =>
           (ps.filter fun p => decide (¬ p.confidence < confidenceThreshold)).map
             (lintProblem path)
       | .error _ => []) ++
      (match vetRes with
       | .ok ps => ps.map (vetProblem path)
       | .error _ => [])

/-! ### `Client.Fix`, the fix planner -/

/-- Errors `Client.Fix` can return: its own two `fmt.Errorf` failures, or
an error propagated unchanged from `GetBlob` / `format.Source`. -/
inductive FixError (ε : Type) where
  | notFixable (text : String)
  | unknownKind (text : String)
  | upstream (e : ε)
deriving DecidableEq

/-- Go struct `Fix` of fixhub.go, `Orig` and `New` as byte contents. -/
structure Fix where
  orig : List Nat
  new : List Nat
deriving DecidableEq

/-- Method `Client.Fix` of fixhub.go with `GetBlob` and `format.Source` passed as
oracles: reject non-fixable problems, reject kinds other than `Gofmt`,
then re-fetch the blob by `p.SHA1`, reformat it, and return both. -/
def clientFix {ε : Type} (getBlob : String → Except ε (List Nat))
    (formatSource : List Nat → Except ε (List Nat)) (p : Problem) :
    Except (FixError ε) Fix :=
  if !p.fixable then .error (.notFixable p.text)
  else if p.ptype ≠ Gofmt then .error (.unknownKind p.text)
  else
    match getBlob p.sha1 with
    | .error e => .error (.upstream e)
    | .ok orig =>
        match formatSource orig with
        | .error e => .error (.upstream e)
        | .ok newBytes => .ok { orig := orig, new := newBytes }

/-! ### `Client.CommitFix` and the working-repo state -/

/-- The fields of `Client` that `CommitFix` and the branch workflow read:
requested repository, working (branch-target) repository, authenticated
user. -/
structure ClientState where
  owner : String
  repo : String
  workingOwner : String
  workingRepo : String
  user : String
deriving DecidableEq

/-- The deterministic branch name `fmt.Sprintf("fixhub-%s", c.user)`. -/
def fixhubBranch (c : ClientState) : String := "fixhub-" ++ c.user

/-- The comparison URL `CommitFix` formats: same-repo form when the
working repository is the requested one, fork-compare form otherwise.
Note it depends only on the client state, not on the problem or fix. -/
def cmpURL (c : ClientState) : String :=
  if c.workingOwner = c.owner ∧ c.workingRepo = c.repo then
    "https://github.com/" ++ c.owner ++ "/" ++ c.repo ++ "/compare/" ++
      fixhubBranch c ++ "?expand=1"
  else
    "https://github.com/" ++ c.workingOwner ++ "/" ++ c.workingRepo ++
      "/compare/" ++ c.owner ++ ":master..." ++ c.workingOwner ++
      ":fixhub-" ++ c.user ++ "?expand=1"

/-- Errors `CommitFix` can return: its own guard when no user is
authenticated, or the error from `Repositories.UpdateFile` passed through. -/
inductive CommitError (ε : Type) where
  | noAuthenticatedUser
  | upstream (e : ε)
deriving DecidableEq

/-- Method `Client.CommitFix` with the `UpdateFile` outcome passed as an oracle:
after the guard, the comparison URL is computed and returned regardless of
whether `UpdateFile` failed, alongside that error.  The problem and fix
arguments feed only the upstream call, never the URL. -/
def commitFix {ε : Type} (c : ClientState) (updateFileErr : Option ε)
    (_p : Problem) (_f : Fix) : String × Option (CommitError ε) :=
  if c.user = "" then ("", some .noAuthenticatedUser)
  else (cmpURL c, updateFileErr.map .upstream)

/-- The same-repo comparison-URL shape in the spec's words:
`\x7brepo\x7d/compare/\x7bbranch\x7d?expand=1` on the github host. -/
def specSameRepoCompareURL (owner repo branch : String) : String :=
  "https://github.com/" ++ owner ++ "/" ++ repo ++ "/compare/" ++ branch ++
    "?expand=1"

/-- The fork comparison-URL shape in the spec's words:
fork owner and repo, then `originalOwner:master...forkOwner:branch`. -/
def specForkCompareURL (forkOwner forkRepo originalOwner branch : String) :
    String :=
  "https://github.com/" ++ forkOwner ++ "/" ++ forkRepo ++ "/compare/" ++
    originalOwner ++ ":master..." ++ forkOwner ++ ":" ++ branch ++
    "?expand=1"

/-! ### The fork-readiness polling loop of `Client.loadWorkingRepo` -/

/-- The polling loop after `CreateFork`: starting from `wait = 50` (ms),
while `wait < 5000` sleep for `wait`, probe `Repositories.Get`, stop on
success, else double `wait`.  Returns the list of sleeps performed, in
order; `forkVisible n` is the outcome of the `n`-th probe.  The `0 < wait`
conjunct in the guard is vacuous on every reachable call (`wait` starts at
50 and doubles) and only justifies termination. -/
def forkPollWaits (forkVisible : Nat → Bool) (wait attempt : Nat) : List Nat :=
  if h : 0 < wait ∧ wait < 5000 then
    wait ::
      (if forkVisible attempt then []
       else forkPollWaits forkVisible (wait * 2) (attempt + 1))
  else []
termination_by 5000 - wait
decreasing_by omega

/-- Method `Client.loadWorkingRepo` with the GitHub calls passed as oracles:
owners and collaborators work on the original repository; otherwise fork
(`createFork` returns the fork's name, or `none` when the response has no
name) and poll for its visibility.  The result carries the working owner,
working repo, and the trace of sleeps performed; note the fork branch
returns `.ok` whether or not the fork ever became visible. -/
def loadWorkingRepo (user owner repo : String)
    (isCollaborator : Except String Bool)
    (createFork : Except String (Option String))
    (forkVisible : Nat → Bool) :
    Except String (String × String × List Nat) :=
  if user = owner then .ok (owner, repo, [])
  else
    match isCollaborator with
    | .error e => .error e
    | .ok true => .ok (owner, repo, [])
    | .ok false =>
        match createFork with
        | .error e => .error e
        | .ok none =>
            .error ("fork of " ++ owner ++ "/" ++ repo ++ " returned no name")
        | .ok (some name) =>
            .ok (user, name, forkPollWaits forkVisible 50 0)

/-! ### The in-memory session store (cmd/fixhubd/datastore.go) -/

/-- Go struct `FixData` of cmd/fixhubd/fix.go. -/
structure FixData where
  owner : String
  repo : String
  problems : List Problem
deriving DecidableEq

/-- A Go `map[string]V`, modelled as an association list in which a key
occurs at most once; `mapInsert` replaces any existing binding. -/
def mapErase {β : Type} (k : String) (m : List (String × β)) :
    List (String × β) :=
  m.filter fun kv => decide (kv.1 ≠ k)

/-- Go `m[k] = v`. -/
def mapInsert {β : Type} (k : String) (v : β) (m : List (String × β)) :
    List (String × β) :=
  (k, v) :: mapErase k m

/-- The two maps of `type store struct`: `data` and `timeout`.  Timestamps
are integers counting milliseconds. -/
structure StoreState where
  data : List (String × FixData)
  timeout : List (String × Int)
deriving DecidableEq

/-- The store the process starts with: both maps empty. -/
def initialStore : StoreState := { data := [], timeout := [] }

/-- Rendering `fmt.Sprintf("%x", n)` of a non-negative draw: lowercase hex. -/
def goHex (n : Nat) : String := String.mk (Nat.toDigits 16 n)

/-- Method `store.Put`: format one `rng.Int31()` draw as hex, store the session
under that key unconditionally, and return the key.  There is no
collision check and the `timeout` map is not touched. -/
def storePut (s : StoreState) (draw : Nat) (d : FixData) :
    StoreState × String :=
  let key := goHex draw
  ({ s with data := mapInsert key d s.data }, key)

/-- Method `store.Get`: look the key up in `data`; absent keys are an error. -/
def storeGet (s : StoreState) (key : String) : Except String FixData :=
  match List.lookup key s.data with
  | some d => .ok d
  | none => .error ("no such key: \"" ++ key ++ "\"")

/-- Method `store.Remove`: delete the key from both maps. -/
def storeRemove (s : StoreState) (key : String) : StoreState :=
  { data := mapErase key s.data, timeout := mapErase key s.timeout }

/-- The test `time.Since(t) > 2*time.Minute` at current time `now`, in ms. -/
def timeoutExpired (now t : Int) : Bool := decide (now - t > 120000)

/-- One pass of `store.cleanup`'s body at time `now`: every key whose
`timeout` entry is older than two minutes is deleted from both maps. -/
def storeSweep (now : Int) (s : StoreState) : StoreState :=
  { data := s.data.filter fun kv =>
      match List.lookup kv.1 s.timeout with
      | some t => !(timeoutExpired now t)
      | none => true,
    timeout := s.timeout.filter fun kt => !(timeoutExpired now kt.2) }

/-! ### The `fix` HTTP handler's commit loop (cmd/fixhubd/fix.go) -/

/-- What the `fix` handler writes back to the user: an `errf` error page
(status code and rendered text), a redirect to a single comparison URL,
or the list template over all URLs. -/
inductive FixResponse where
  | errorPage (code : Nat) (text : String)
  | redirect (url : String)
  | listPage (urls : List String)
deriving DecidableEq

/-- Observable outcome of one run of the `fix` handler: the response sent
to the user, the comparison URLs of the `CommitFix` calls that completed
without error (in order — these upstream commits persist; nothing rolls
them back), and whether `datastore.Remove` was reached. -/
structure FixRun where
  response : FixResponse
  committed : List String
  sessionRemoved : Bool
deriving DecidableEq

/-- The body of the handler's `for _, p := range d.Problems` loop:
`client.Fix` then `client.CommitFix` per problem, stopping at the first
error.  Returns the URLs collected so far and the `errf` text of the
first failure, if any.  `fixF` and `commitF` stand for the two calls with
the session's client state baked in. -/
def fixLoop (fixF : Problem → Except String Fix)
    (commitF : Problem → Fix → String × Option String) :
    List Problem → List String × Option String
  | [] => ([], none)
  | p :: rest =>
      match fixF p with
      | .error e => ([], some ("fix: " ++ e))
      | .ok f =>
          match commitF p f with
          | (_, some e) => ([], some ("commit: " ++ e))
          | (url, none) =>
              let r := fixLoop fixF commitF rest
              (url :: r.1, r.2)

/-- The outcome of `client.Fix` followed by `client.CommitFix` on one
problem, with the `errf` prefix the handler would attach on failure. -/
def fixStep (fixF : Problem → Except String Fix)
    (commitF : Problem → Fix → String × Option String) (p : Problem) :
    String × Option String :=
  match fixF p with
  | .error e => ("", some ("fix: " ++ e))
  | .ok f =>
      match commitF p f with
      | (u, some e) => (u, some ("commit: " ++ e))
      | (u, none) => (u, none)

/-- The `fix` handler of cmd/fixhubd/fix.go, from the session lookup on:
a failed lookup is a 400 error page, a failed `Branch` a 500, then the
commit loop runs; its first failure is surfaced as a 500 error page
carrying only that failure's text, and only the all-success path removes
the session and renders the URLs (redirect when there is exactly one). -/
def fixHandler (getRes : Except String FixData) (branchRes : Option String)
    (fixF : Problem → Except String Fix)
    (commitF : Problem → Fix → String × Option String) : FixRun :=
  match getRes with
  | .error e => ⟨.errorPage 400 ("state: " ++ e), [], false⟩
  | .ok d =>
      match branchRes with
      | some e => ⟨.errorPage 500 ("create fork: " ++ e), [], false⟩
      | none =>
          let r := fixLoop fixF commitF d.problems
          match r.2 with
          | some m => ⟨.errorPage 500 m, r.1, false⟩
          | none =>
              match r.1 with
              | [u] => ⟨.redirect u, [u], true⟩
              | urls => ⟨.listPage urls, urls, true⟩

/-! ### Concrete fixtures used by counterexamples and witnesses -/

/-- A gofmt problem for `a.go` recorded against blob `1111`. -/
def pTieA : Problem :=
  { ptype := "gofmt", file := "a.go", sha1 := "1111", line := 0,
    text := "This file needs formatting with gofmt.", fixable := true }

/-- The same finding recorded against a different blob `2222`: it agrees
with `pTieA` on `File`, `Line` and `Text` and differs in `SHA1`. -/
def pTieB : Problem :=
  { ptype := "gofmt", file := "a.go", sha1 := "2222", line := 0,
    text := "This file needs formatting with gofmt.", fixable := true }

/-- A first stored session. -/
def dOne : FixData := { owner := "owner1", repo := "repo1", problems := [] }

/-- A second, different session. -/
def dTwo : FixData :=
  { owner := "owner2", repo := "repo2", problems := [pTieA] }

/-- A session store holding one live session under key `"2a"`
(the hex rendering of the draw 42). -/
def storeWith2a : StoreState := { data := [("2a", dOne)], timeout := [] }

/-! ### C1 — finalize ordering and determinism -/

/-- C1, counterexample: two per-file tasks can deliver the same two
problems in either order; on two problems that agree on `File`, `Line`
and `Text` but differ in `SHA1`, the finalize step (Go's `sort.Sort`,
which runs insertion sort on a two-element range and so preserves the
arrival order of `Less`-ties) returns the two arrival orders unchanged —
two different output sequences for the same multiset, refuting the
claimed identical output regardless of arrival order. -/
theorem c1_tie_order_counterexample :
    ([pTieA, pTieB] : List Problem).Perm [pTieB, pTieA] ∧
    checkFinalize [pTieA, pTieB] = [pTieA, pTieB] ∧
    checkFinalize [pTieB, pTieA] = [pTieB, pTieA] ∧
    checkFinalize [pTieA, pTieB] ≠ checkFinalize [pTieB, pTieA] :=
  ⟨by decide, by decide, by decide, by decide⟩

/-- C1, amended: `Check`'s final result is a permutation of the
accumulated problems, sorted by `Problems.Less` (`File` asc, then `Line`
asc, then `Text` asc); two finalize runs over the same problems in
different arrival orders agree on the whole sequence of
`(File, Line, Text)` keys, but problems tied on all three key fields and
differing in other fields (`SHA1`, `Type`, `Fixable`) may appear in
either relative order, so the full records need not be identical. -/
theorem c1_finalize_sorted_key_deterministic :
    ∀ l l₁ l₂ : List Problem,
      (checkFinalize l).Perm l ∧
      ProblemsSorted (checkFinalize l) ∧
      (l₁.Perm l₂ →
        (checkFinalize l₁).map keyOf = (checkFinalize l₂).map keyOf) :=
  fun l l₁ l₂ =>
    ⟨goInsertionSort_perm problemsLess l, checkFinalize_sorted l,
     fun h => checkFinalize_keys_deterministic h⟩

/-- Witness for C1 at a concrete tie: the key sequences of the two
arrival orders coincide even though the full outputs differ. -/
theorem c1_witness :
    (checkFinalize [pTieA, pTieB]).Perm [pTieA, pTieB] ∧
    ProblemsSorted (checkFinalize [pTieA, pTieB]) ∧
    (checkFinalize [pTieA, pTieB]).map keyOf
      = (checkFinalize [pTieB, pTieA]).map keyOf :=
  ⟨(c1_finalize_sorted_key_deterministic [pTieA, pTieB] [pTieA, pTieB]
      [pTieB, pTieA]).1,
   (c1_finalize_sorted_key_deterministic [pTieA, pTieB] [pTieA, pTieB]
      [pTieB, pTieA]).2.1,
   (c1_finalize_sorted_key_deterministic [pTieA, pTieB] [pTieA, pTieB]
      [pTieB, pTieA]).2.2 (by decide)⟩

/-! ### C2 — Put and key collisions -/

/-- C2, counterexample: with key `"2a"` live, a `Put` whose single draw
is 42 (hex `"2a"`) neither fails nor retries — it returns the colliding
key and the old session is silently replaced by the new one. -/
theorem c2_collision_overwrites_counterexample :
    (storePut storeWith2a 42 dTwo).2 = "2a" ∧
    List.lookup "2a" storeWith2a.data = some dOne ∧
    storeGet (storePut storeWith2a 42 dTwo).1 "2a" = .ok dTwo ∧
    dTwo ≠ dOne :=
  ⟨rfl, rfl, rfl, by decide⟩

/-- C2, amended: `Put` draws exactly one key (the lowercase hex of one
`rng.Int31()` draw) and unconditionally stores the session under it,
returning that key; it never fails and never redraws, and when the key
collides with a currently live one the stored session is silently
overwritten. -/
theorem c2_put_single_draw_overwrites :
    ∀ (s : StoreState) (draw : Nat) (d d₀ : FixData),
      (storePut s draw d).2 = goHex draw ∧
      storeGet (storePut s draw d).1 (goHex draw) = .ok d ∧
      (List.lookup (goHex draw) s.data = some d₀ →
        storeGet (storePut s draw d).1 (goHex draw) = .ok d) := by
  intro s draw d d₀
  refine ⟨rfl, ?_, fun _ => ?_⟩ <;>
    simp [storePut, storeGet, mapInsert, List.lookup]

/-- Witness for C2 at the colliding store. -/
theorem c2_witness :
    storeGet (storePut storeWith2a 42 dTwo).1 (goHex 42) = .ok dTwo :=
  (c2_put_single_draw_overwrites storeWith2a 42 dTwo dOne).2.2 (by decide)

/-! ### C3 — the TTL sweep -/

/-- C3: `Put` stores the session in `data` but never records anything in
`timeout` (nothing in the program ever writes to `timeout`), so a sweep
pass at any later time — arbitrarily far beyond the 2-minute TTL —
leaves the store unchanged and `Get` still finds the session.  This
contradicts the intended TTL eviction that the `timeout` map, the
`cleanup` goroutine and `Remove`'s `timeout` deletion exist for. -/
theorem c3_sweep_never_evicts :
    ∀ (d : FixData) (draw : Nat) (now : Int),
      ((storePut initialStore draw d).1).timeout = [] ∧
      storeSweep now (storePut initialStore draw d).1
        = (storePut initialStore draw d).1 ∧
      storeGet (storeSweep now (storePut initialStore draw d).1) (goHex draw)
        = .ok d := by
  intro d draw now
  refine ⟨rfl, rfl, ?_⟩
  simp [storeSweep, storePut, storeGet, mapInsert, mapErase, initialStore,
    List.lookup]

/-! ### C4 and C10 — CommitFix comparison URLs -/

/-- Splitting the branch component off the tail of the fork-compare URL:
the code writes `":fixhub-" ++ user` where the spec writes
`":" ++ branch` with `branch = "fixhub-" ++ user`. -/
theorem append_colon_branch (x u : String) :
    (x ++ ":") ++ ("fixhub-" ++ u) = (x ++ ":fixhub-") ++ u := by
  rw [String.append_assoc, ← String.append_assoc ":" "fixhub-" u]
  show x ++ (":fixhub-" ++ u) = x ++ ":fixhub-" ++ u
  rw [String.append_assoc]

/-- The comparison URL is never the empty string (both shapes start with
the github host). -/
theorem cmpURL_ne_empty (c : ClientState) : cmpURL c ≠ "" := by
  have h19 : (0 : Nat) < ("https://github.com/" : String).length := by decide
  intro h
  have hl := congrArg String.length h
  by_cases hc : c.workingOwner = c.owner ∧ c.workingRepo = c.repo <;>
    simp only [cmpURL, hc, if_true, if_false, ite_true, ite_false,
      String.length_append] at hl <;>
    simp at hl <;> omega

/-- A same-repo client session: the authenticated user `alice` works on
branches of the requested repository itself. -/
def cSameRepo : ClientState :=
  { owner := "octo", repo := "proj", workingOwner := "octo",
    workingRepo := "proj", user := "alice" }

/-- A fork client session: `alice` works on her fork of `octo/proj`. -/
def cFork : ClientState :=
  { owner := "octo", repo := "proj", workingOwner := "alice",
    workingRepo := "proj", user := "alice" }

/-- An example fix. -/
def fixEx : Fix := { orig := [1], new := [2] }

/-- C4, counterexample: committing two fixes in one session to the same
branch yields the *same* comparison URL twice, not two distinct ones —
`CommitFix` builds the URL from the client state alone, ignoring the
problem and fix. -/
theorem c4_urls_equal_counterexample :
    (commitFix (ε := String) cSameRepo none pTieA fixEx).2 = none ∧
    (commitFix (ε := String) cSameRepo none pTieB fixEx).2 = none ∧
    (commitFix (ε := String) cSameRepo none pTieA fixEx).1
      = (commitFix (ε := String) cSameRepo none pTieB fixEx).1 ∧
    (commitFix (ε := String) cSameRepo none pTieA fixEx).1
      = "https://github.com/octo/proj/compare/fixhub-alice?expand=1" :=
  ⟨rfl, rfl, rfl, rfl⟩

/-- C4, amended: the two successful `CommitFix` calls of one session
return the *same* comparison URL (sharing the branch component), of the
documented shape: the same-repo form when the working repository is the
requested one, the fork-compare form otherwise, in both cases with
branch `fixhub-<user>`. -/
theorem c4_commit_urls_shape :
    ∀ (ε : Type) (c : ClientState) (e₁ e₂ : Option ε) (p₁ p₂ : Problem)
      (f₁ f₂ : Fix),
      c.user ≠ "" →
      ((commitFix c e₁ p₁ f₁).1 = (commitFix c e₂ p₂ f₂).1 ∧
       (c.workingOwner = c.owner ∧ c.workingRepo = c.repo →
         (commitFix c e₁ p₁ f₁).1
           = specSameRepoCompareURL c.owner c.repo (fixhubBranch c)) ∧
       (¬ (c.workingOwner = c.owner ∧ c.workingRepo = c.repo) →
         (commitFix c e₁ p₁ f₁).1
           = specForkCompareURL c.workingOwner c.workingRepo c.owner
               (fixhubBranch c))) := by
  intro ε c e₁ e₂ p₁ p₂ f₁ f₂ hu
  refine ⟨by simp [commitFix, hu], fun hc => ?_, fun hc => ?_⟩
  · simp [commitFix, hu, cmpURL, hc, specSameRepoCompareURL, fixhubBranch]
  · simp only [commitFix, hu, if_false, ite_false, cmpURL, hc,
      specForkCompareURL, fixhubBranch]
    rw [append_colon_branch]

/-- Witness for C4, covering both URL shapes at concrete sessions. -/
theorem c4_witness :
    (commitFix (ε := String) cSameRepo none pTieA fixEx).1
      = (commitFix (ε := String) cSameRepo (some "e") pTieB fixEx).1 ∧
    (commitFix (ε := String) cSameRepo none pTieA fixEx).1
      = specSameRepoCompareURL cSameRepo.owner cSameRepo.repo
          (fixhubBranch cSameRepo) ∧
    (commitFix (ε := String) cFork none pTieA fixEx).1
      = specForkCompareURL cFork.workingOwner cFork.workingRepo cFork.owner
          (fixhubBranch cFork) :=
  ⟨(c4_commit_urls_shape String cSameRepo none (some "e") pTieA pTieB fixEx
      fixEx (by decide)).1,
   (c4_commit_urls_shape String cSameRepo none (some "e") pTieA pTieB fixEx
      fixEx (by decide)).2.1 (by decide),
   (c4_commit_urls_shape String cFork none none pTieA pTieA fixEx fixEx
      (by decide)).2.2 (by decide)⟩

/-- C10: after the authenticated-user guard, `CommitFix` computes and
returns the non-empty comparison URL whether or not `UpdateFile` failed,
returning the URL and the upstream error together — so a caller must
check the error, not the URL. -/
theorem c10_url_returned_alongside_error :
    ∀ (ε : Type) (c : ClientState) (e : ε) (res : Option ε) (p : Problem)
      (f : Fix),
      c.user ≠ "" →
      ((commitFix c res p f).1 = cmpURL c ∧
       (commitFix c res p f).1 ≠ "" ∧
       (commitFix c res p f).2 = res.map CommitError.upstream ∧
       commitFix c (some e) p f
         = (cmpURL c, some (CommitError.upstream e))) := by
  intro ε c e res p f hu
  refine ⟨by simp [commitFix, hu], ?_, by simp [commitFix, hu],
    by simp [commitFix, hu]⟩
  simp only [commitFix, hu, if_false, ite_false]
  exact cmpURL_ne_empty c

/-- Witness for C10: a failing `UpdateFile` still comes back with the
full comparison URL. -/
theorem c10_witness :
    (commitFix cSameRepo (some "upstream failure") pTieA fixEx).1
      = cmpURL cSameRepo ∧
    commitFix cSameRepo (some "upstream failure") pTieA fixEx
      = (cmpURL cSameRepo, some (CommitError.upstream "upstream failure")) :=
  ⟨(c10_url_returned_alongside_error String cSameRepo "upstream failure"
      (some "upstream failure") pTieA fixEx (by decide)).1,
   (c10_url_returned_alongside_error String cSameRepo "upstream failure"
      (some "upstream failure") pTieA fixEx (by decide)).2.2.2⟩

/-! ### C5 — the commit loop of the `fix` handler -/

theorem fixLoop_all_ok (fixF : Problem → Except String Fix)
    (commitF : Problem → Fix → String × Option String)
    (urlOf : Problem → String) :
    ∀ ps : List Problem,
      (∀ p ∈ ps, fixStep fixF commitF p = (urlOf p, none)) →
      fixLoop fixF commitF ps = (ps.map urlOf, none) := by
  intro ps
  induction ps with
  | nil => intro _; rfl
  | cons p rest ih =>
    intro h
    have hp := h p (List.mem_cons_self p rest)
    have hrest := ih fun q hq => h q (List.mem_cons_of_mem p hq)
    cases hf : fixF p with
    | error e => simp [fixStep, hf] at hp
    | ok f =>
      rcases hc : commitF p f with ⟨u, oe⟩
      cases oe with
      | some e => simp [fixStep, hf, hc] at hp
      | none =>
        have hu : u = urlOf p := by
          have := hp
          simp [fixStep, hf, hc] at this
          exact this
        simp [fixLoop, hf, hc, hrest, hu]

theorem fixLoop_stops_at_first_failure (fixF : Problem → Except String Fix)
    (commitF : Problem → Fix → String × Option String)
    (urlOf : Problem → String) (bad : Problem) (m : String) :
    ∀ (good rest : List Problem),
      (∀ p ∈ good, fixStep fixF commitF p = (urlOf p, none)) →
      (fixStep fixF commitF bad).2 = some m →
      fixLoop fixF commitF (good ++ bad :: rest) = (good.map urlOf, some m) := by
  intro good
  induction good with
  | nil =>
    intro rest _ hbad
    cases hf : fixF bad with
    | error e =>
      simp only [fixStep, hf] at hbad
      simp [fixLoop, hf, hbad]
    | ok f =>
      rcases hc : commitF bad f with ⟨u, oe⟩
      cases oe with
      | some e =>
        simp only [fixStep, hf, hc] at hbad
        simp [fixLoop, hf, hc, hbad]
      | none => simp [fixStep, hf, hc] at hbad
  | cons p ps ih =>
    intro rest hgood hbad
    have hp := hgood p (List.mem_cons_self p ps)
    cases hf : fixF p with
    | error e => simp [fixStep, hf] at hp
    | ok f =>
      rcases hc : commitF p f with ⟨u, oe⟩
      cases oe with
      | some e => simp [fixStep, hf, hc] at hp
      | none =>
        have hu : u = urlOf p := by
          have := hp
          simp [fixStep, hf, hc] at this
          exact this
        have htail := ih rest (fun q hq => hgood q (List.mem_cons_of_mem p hq))
          hbad
        simp [fixLoop, hf, hc, htail, hu]

/-- C5, amended: the handler's commit loop processes the session's
findings in their original order; the first failing fix-or-commit step
aborts the whole remainder (the response does not depend on what follows
the failing finding), the already-made commits persist (`committed`
lists exactly the URLs of the successful prefix, in order, and nothing
undoes them), and the session is not removed — but the user response on
failure is an error page carrying only the failure text: the partial
result is discarded, not surfaced.  On an all-success session every URL
is collected in order (a single URL becomes a redirect). -/
theorem c5_commit_loop_behavior :
    ∀ (fixF : Problem → Except String Fix)
      (commitF : Problem → Fix → String × Option String)
      (owner repo : String) (good rest rest' : List Problem) (bad : Problem)
      (urlOf : Problem → String) (m : String),
      (∀ p ∈ good, fixStep fixF commitF p = (urlOf p, none)) →
      (fixStep fixF commitF bad).2 = some m →
      (fixHandler (.ok ⟨owner, repo, good ++ bad :: rest⟩) none fixF commitF
         = ⟨.errorPage 500 m, good.map urlOf, false⟩ ∧
       fixHandler (.ok ⟨owner, repo, good ++ bad :: rest⟩) none fixF commitF
         = fixHandler (.ok ⟨owner, repo, good ++ bad :: rest'⟩) none fixF
             commitF ∧
       fixHandler (.ok ⟨owner, repo, good⟩) none fixF commitF
         = (match good.map urlOf with
            | [u] => ⟨.redirect u, [u], true⟩
            | urls => ⟨.listPage urls, urls, true⟩)) := by
  intro fixF commitF owner repo good rest rest' bad urlOf m hgood hbad
  have h₁ := fixLoop_stops_at_first_failure fixF commitF urlOf bad m good rest
    hgood hbad
  have h₂ := fixLoop_stops_at_first_failure fixF commitF urlOf bad m good rest'
    hgood hbad
  have h₃ := fixLoop_all_ok fixF commitF urlOf good hgood
  refine ⟨?_, ?_, ?_⟩
  · simp [fixHandler, h₁]
  · simp [fixHandler, h₁, h₂]
  · simp only [fixHandler, h₃]

/-- The `client.Fix` oracle of the C5 scenario: always plans a fix. -/
def fixF5 : Problem → Except String Fix := fun _ => .ok fixEx

/-- The `client.CommitFix` oracle of the C5 scenario: the first finding
commits as `URL1`; the second fails upstream with `boom`. -/
def commitF5 : Problem → Fix → String × Option String :=
  fun p _ => if p = pTieA then ("URL1", none) else ("", some "boom")

/-- C5, counterexample: with the first fix committed (as `URL1`) and the
second commit failing, the user-visible response is only the error page
`commit: boom` — it nowhere contains the partial result `URL1`, whose
commit nonetheless persists (and the session is left in the store). -/
theorem c5_partial_result_not_surfaced_counterexample :
    fixHandler (.ok ⟨"octo", "proj", [pTieA, pTieB]⟩) none fixF5 commitF5
      = ⟨.errorPage 500 "commit: boom", ["URL1"], false⟩ ∧
    ¬ ("URL1" : String).data <:+: ("commit: boom" : String).data :=
  ⟨by decide, by decide⟩

/-- Witness for C5 at the concrete two-finding session. -/
theorem c5_witness :
    fixHandler (.ok ⟨"octo", "proj", [pTieA] ++ pTieB :: []⟩) none fixF5
        commitF5
      = ⟨.errorPage 500 "commit: boom", [pTieA].map (fun _ => "URL1"),
         false⟩ :=
  (c5_commit_loop_behavior fixF5 commitF5 "octo" "proj" [pTieA] [] [pTieB]
    pTieB (fun _ => "URL1") "commit: boom" (by decide) (by decide)).1

/-! ### C6 and C7 — per-file findings -/

theorem lint_part_no_gofmt (path : String) (l : List LintProblem) :
    ((l.map (lintProblem path)).filter fun q => decide (q.ptype = Gofmt))
      = [] := by
  rw [List.filter_eq_nil_iff]
  intro q hq
  rcases List.mem_map.mp hq with ⟨p, _, rfl⟩
  simp [lintProblem, Gofmt]

theorem vet_part_no_gofmt (path : String) (l : List VetProblem) :
    ((l.map (vetProblem path)).filter fun q => decide (q.ptype = Gofmt))
      = [] := by
  rw [List.filter_eq_nil_iff]
  intro q hq
  rcases List.mem_map.mp hq with ⟨p, _, rfl⟩
  simp [vetProblem, Gofmt]

/-- C6: when `format.Source` fails with scanner errors, the per-file task
records exactly one problem per reported error — carrying that error's
line number and message, with zero-valued `Type`, `SHA1`, `Fixable` —
and nothing else for that file: the early `return` keeps gofmt, lint and
vet findings out no matter how those analyzers would have fared. -/
theorem c6_syntax_error_findings :
    ∀ (path sha1 : String) (src : List Nat) (errs : List ScannerError)
      (e : ScannerError) (lintRes : Except String (List LintProblem))
      (vetRes : Except String (List VetProblem)),
      checkFile path sha1 src (.errorList errs) lintRes vetRes
          = errs.map (scannerProblem path) ∧
      checkFile path sha1 src (.errorSingle e) lintRes vetRes
          = [scannerProblem path e] ∧
      (checkFile path sha1 src (.errorList errs) lintRes vetRes).length
          = errs.length ∧
      (scannerProblem path e).line = e.line ∧
      (scannerProblem path e).text = e.msg ∧
      (scannerProblem path e).file = path ∧
      (scannerProblem path e).ptype ≠ Gofmt ∧
      (scannerProblem path e).fixable = false := by
  intro path sha1 src errs e lintRes vetRes
  exact ⟨rfl, rfl, by simp [checkFile], rfl, rfl, rfl,
    by simp [scannerProblem, Gofmt], rfl⟩

/-- C7: when `format.Source` succeeds, the per-file task records a
`Gofmt`-typed problem exactly when the reformatted bytes differ from the
original — none when they are equal, and exactly one otherwise, fixable
and carrying the original blob id (lint and vet findings all have an
empty `Type`, so they never count as format findings). -/
theorem c7_format_finding :
    ∀ (path sha1 : String) (src formatted : List Nat)
      (lintRes : Except String (List LintProblem))
      (vetRes : Except String (List VetProblem)),
      ((checkFile path sha1 src (.ok formatted) lintRes vetRes).filter
          fun q => decide (q.ptype = Gofmt))
        = (if src = formatted then [] else [gofmtProblem path sha1]) ∧
      (gofmtProblem path sha1).fixable = true ∧
      (gofmtProblem path sha1).sha1 = sha1 ∧
      (gofmtProblem path sha1).ptype = Gofmt := by
  intro path sha1 src formatted lintRes vetRes
  refine ⟨?_, rfl, rfl, rfl⟩
  by_cases h : src = formatted <;>
    cases lintRes <;> cases vetRes <;>
      simp [checkFile, h, List.filter_append, lint_part_no_gofmt,
        vet_part_no_gofmt, gofmtProblem, Gofmt, lintProblem, vetProblem,
        show ("" : String) ≠ "gofmt" from by decide] <;>
      (intro a x hx hle hax; simp [← hax])

/-! ### C8 — the fix planner -/

/-- C8: `Client.Fix` rejects non-fixable problems, rejects kinds other
than `Gofmt` (the only supported automated repair), propagates the
fetcher's error when re-reading the blob fails, and on success re-fetches
the original bytes by the recorded blob id, recomputes the canonical
reformatting, and returns both as the `Fix`. -/
theorem c8_fix_planner :
    ∀ (ε : Type) (getBlob : String → Except ε (List Nat))
      (formatSource : List Nat → Except ε (List Nat)) (p : Problem),
      (p.fixable = false →
        clientFix getBlob formatSource p = .error (.notFixable p.text)) ∧
      (p.fixable = true → p.ptype ≠ Gofmt →
        clientFix getBlob formatSource p = .error (.unknownKind p.text)) ∧
      (∀ e, p.fixable = true → p.ptype = Gofmt → getBlob p.sha1 = .error e →
        clientFix getBlob formatSource p = .error (.upstream e)) ∧
      (∀ origBytes newBytes, p.fixable = true → p.ptype = Gofmt →
        getBlob p.sha1 = .ok origBytes → formatSource origBytes = .ok newBytes →
        clientFix getBlob formatSource p
          = .ok { orig := origBytes, new := newBytes }) := by
  intro ε getBlob formatSource p
  refine ⟨fun h => ?_, fun h hk => ?_, fun e h hk hb => ?_,
    fun origBytes newBytes h hk hb hf => ?_⟩
  · simp [clientFix, h]
  · simp [clientFix, h, hk]
  · simp [clientFix, h, hk, hb]
  · simp [clientFix, h, hk, hb, hf]

/-- A problem `Client.Fix` accepts: fixable and of kind `Gofmt`. -/
def pFixable : Problem :=
  { ptype := "gofmt", file := "a.go", sha1 := "1111", line := 0,
    text := "needs gofmt", fixable := true }

/-- A non-fixable problem. -/
def pNotFixable : Problem :=
  { ptype := "", file := "a.go", sha1 := "", line := 3,
    text := "advisory", fixable := false }

/-- A fixable problem of an unsupported kind. -/
def pWrongKind : Problem :=
  { ptype := "vet", file := "a.go", sha1 := "1111", line := 3,
    text := "vet issue", fixable := true }

/-- Witness for C8, hitting all four branches of the planner. -/
theorem c8_witness :
    clientFix (ε := String) (fun _ => .ok [1]) (fun b => .ok b) pNotFixable
      = .error (.notFixable "advisory") ∧
    clientFix (ε := String) (fun _ => .ok [1]) (fun b => .ok b) pWrongKind
      = .error (.unknownKind "vet issue") ∧
    clientFix (ε := String) (fun _ => .error "blob gone") (fun b => .ok b)
        pFixable
      = .error (.upstream "blob gone") ∧
    clientFix (ε := String) (fun _ => .ok [3]) (fun _ => .ok [4]) pFixable
      = .ok { orig := [3], new := [4] } :=
  ⟨(c8_fix_planner String (fun _ => .ok [1]) (fun b => .ok b)
      pNotFixable).1 rfl,
   (c8_fix_planner String (fun _ => .ok [1]) (fun b => .ok b)
      pWrongKind).2.1 rfl (by decide),
   (c8_fix_planner String (fun _ => .error "blob gone") (fun b => .ok b)
      pFixable).2.2.1 "blob gone" rfl rfl rfl,
   (c8_fix_planner String (fun _ => .ok [3]) (fun _ => .ok [4])
      pFixable).2.2.2 [3] [4] rfl rfl rfl rfl⟩

/-! ### C9 — fork-readiness polling -/

theorem forkPollWaits_empty (forkVisible : Nat → Bool) (w i : Nat)
    (h : ¬ (0 < w ∧ w < 5000)) : forkPollWaits forkVisible w i = [] := by
  rw [forkPollWaits, dif_neg h]

theorem forkPollWaits_head (forkVisible : Nat → Bool) (w i : Nat)
    (h1 : 0 < w) (h2 : w < 5000) :
    (forkPollWaits forkVisible w i).head? = some w := by
  rw [forkPollWaits, dif_pos ⟨h1, h2⟩]
  rfl

theorem forkPollWaits_mem (forkVisible : Nat → Bool) :
    ∀ (fuel w i : Nat), 5000 - w ≤ fuel →
      ∀ x ∈ forkPollWaits forkVisible w i, 0 < x ∧ x < 5000 := by
  intro fuel
  induction fuel with
  | zero =>
    intro w i hf x hx
    rw [forkPollWaits_empty forkVisible w i (by omega)] at hx
    exact absurd hx (List.not_mem_nil x)
  | succ n ih =>
    intro w i hf x hx
    by_cases hg : 0 < w ∧ w < 5000
    · rw [forkPollWaits, dif_pos hg] at hx
      rcases List.mem_cons.mp hx with rfl | hx'
      · exact hg
      · cases hv : forkVisible i
        · rw [hv] at hx'
          simp only [Bool.false_eq_true, if_false] at hx'
          exact ih (w * 2) (i + 1) (by omega) x hx'
        · rw [hv] at hx'
          simp only [if_true] at hx'
          exact absurd hx' (List.not_mem_nil x)
    · rw [forkPollWaits_empty forkVisible w i hg] at hx
      exact absurd hx (List.not_mem_nil x)

theorem forkPollWaits_chain (forkVisible : Nat → Bool) :
    ∀ (fuel w i : Nat), 5000 - w ≤ fuel →
      (forkPollWaits forkVisible w i).Chain' (fun a b => b = 2 * a) := by
  intro fuel
  induction fuel with
  | zero =>
    intro w i hf
    rw [forkPollWaits_empty forkVisible w i (by omega)]
    exact List.chain'_nil
  | succ n ih =>
    intro w i hf
    by_cases hg : 0 < w ∧ w < 5000
    · rw [forkPollWaits, dif_pos hg]
      cases hv : forkVisible i
      · simp only [Bool.false_eq_true, if_false]
        rw [List.chain'_cons']
        refine ⟨?_, ih (w * 2) (i + 1) (by omega)⟩
        intro y hy
        by_cases hg' : 0 < w * 2 ∧ w * 2 < 5000
        · rw [forkPollWaits_head forkVisible (w * 2) (i + 1) hg'.1 hg'.2] at hy
          simp only [Option.mem_def, Option.some.injEq] at hy
          omega
        · rw [forkPollWaits_empty forkVisible (w * 2) (i + 1) hg'] at hy
          simp at hy
      · simp only [if_true]
        exact List.chain'_singleton w
    · rw [forkPollWaits_empty forkVisible w i hg]
      exact List.chain'_nil

theorem forkPollWaits_sum_le (forkVisible : Nat → Bool) :
    ∀ (fuel w i j : Nat), 5000 - w ≤ fuel →
      (forkPollWaits forkVisible w i).sum
        ≤ (forkPollWaits (fun _ => false) w j).sum := by
  intro fuel
  induction fuel with
  | zero =>
    intro w i j hf
    rw [forkPollWaits_empty forkVisible w i (by omega),
      forkPollWaits_empty (fun _ => false) w j (by omega)]
  | succ n ih =>
    intro w i j hf
    by_cases hg : 0 < w ∧ w < 5000
    · conv_rhs => rw [forkPollWaits]
      rw [dif_pos hg]
      conv_lhs => rw [forkPollWaits]
      rw [dif_pos hg]
      simp only [Bool.false_eq_true, if_false, List.sum_cons]
      cases hv : forkVisible i
      · simp only [hv, Bool.false_eq_true, if_false]
        exact Nat.add_le_add_left (ih (w * 2) (i + 1) (j + 1) (by omega)) w
      · simp only [hv, if_true, List.sum_nil]
        exact Nat.le_add_right w _
    · rw [forkPollWaits_empty forkVisible w i hg,
        forkPollWaits_empty (fun _ => false) w j hg]

/-- Total sleep time when the fork never becomes visible:
50 + 100 + 200 + 400 + 800 + 1600 + 3200 ms. -/
theorem forkPollWaits_worst_sum :
    (forkPollWaits (fun _ => false) 50 0).sum = 6350 := by
  simp [forkPollWaits]

/-- C9, counterexample: when the fork never becomes visible the loop
sleeps 50, 100, 200, 400, 800, 1600 and 3200 ms — 6350 ms in total,
which exceeds the claimed ~5-second cap on the total wait (the loop
guard `wait < 5s` bounds each individual sleep, not their sum) — and the
workflow still returns successfully. -/
theorem c9_total_wait_counterexample :
    forkPollWaits (fun _ => false) 50 0
      = [50, 100, 200, 400, 800, 1600, 3200] ∧
    (forkPollWaits (fun _ => false) 50 0).sum = 6350 ∧
    ¬ (forkPollWaits (fun _ => false) 50 0).sum ≤ 5000 ∧
    loadWorkingRepo "alice" "octo" "proj" (.ok false) (.ok (some "proj"))
        (fun _ => false)
      = .ok ("alice", "proj", [50, 100, 200, 400, 800, 1600, 3200]) := by
  refine ⟨by simp [forkPollWaits], forkPollWaits_worst_sum, ?_, ?_⟩
  · rw [forkPollWaits_worst_sum]; omega
  · simp [loadWorkingRepo, forkPollWaits]

/-- C9, amended: when a non-collaborator's fork request succeeds, the
workflow polls with sleeps starting at 50 ms and doubling each attempt;
each individual sleep stays below 5 seconds, the total sleep time is at
most 6350 ms (~6.35 s, the sum of the 7 doubling waits below the
5-second guard), and whether or not the fork ever becomes visible the
workflow proceeds without reporting an error, leaving later commit steps
to fail normally. -/
theorem c9_fork_poll_backoff :
    ∀ (forkVisible : Nat → Bool) (user owner repo name : String),
      user ≠ owner →
      (loadWorkingRepo user owner repo (.ok false) (.ok (some name))
           forkVisible
         = .ok (user, name, forkPollWaits forkVisible 50 0) ∧
       (forkPollWaits forkVisible 50 0).head? = some 50 ∧
       (forkPollWaits forkVisible 50 0).Chain' (fun a b => b = 2 * a) ∧
       (∀ w ∈ forkPollWaits forkVisible 50 0, 0 < w ∧ w < 5000) ∧
       (forkPollWaits forkVisible 50 0).sum ≤ 6350) := by
  intro forkVisible user owner repo name hu
  refine ⟨by simp [loadWorkingRepo, hu],
    forkPollWaits_head forkVisible 50 0 (by omega) (by omega),
    forkPollWaits_chain forkVisible 5000 50 0 (by omega),
    forkPollWaits_mem forkVisible 5000 50 0 (by omega), ?_⟩
  calc (forkPollWaits forkVisible 50 0).sum
      ≤ (forkPollWaits (fun _ => false) 50 0).sum :=
        forkPollWaits_sum_le forkVisible 5000 50 0 0 (by omega)
    _ = 6350 := forkPollWaits_worst_sum
    _ ≤ 6350 := le_refl _

/-- Witness for C9: a fork that is visible at the first probe gives a
single 50 ms sleep and a successful result. -/
theorem c9_witness :
    loadWorkingRepo "alice" "octo" "proj" (.ok false) (.ok (some "proj"))
        (fun _ => true)
      = .ok ("alice", "proj", forkPollWaits (fun _ => true) 50 0) ∧
    (forkPollWaits (fun _ => true) 50 0).head? = some 50 ∧
    (forkPollWaits (fun _ => true) 50 0).sum ≤ 6350 :=
  ⟨(c9_fork_poll_backoff (fun _ => true) "alice" "octo" "proj" "proj"
      (by decide)).1,
   (c9_fork_poll_backoff (fun _ => true) "alice" "octo" "proj" "proj"
      (by decide)).2.1,
   (c9_fork_poll_backoff (fun _ => true) "alice" "octo" "proj" "proj"
      (by decide)).2.2.2.2⟩

end Fixhub
